import Mathlib

/-!
Shallow embedding of the Flipkart reviews sentiment-analysis pipeline
(`CRON_Flipkart_Reviews_Sentiment_Analysis_using_MLFlow_Prefect.py`).

A pandas `DataFrame` is modelled as a list of column names together with a
list of rows, each row a list of cells.  A cell is a string, a rational
number, or the missing marker `na` (pandas `NaN`).  Errors raised by the
Python code are modelled with `Except PyError`.
-/

/-- A single cell of the tabular dataset: a string, a numeric value
(rationals cover the integer 1-5 ratings as well as any other numeric
input), or a missing value (pandas `NaN`). -/
inductive Cell where
  | str : String → Cell
  | num : Rat → Cell
  | na : Cell
deriving DecidableEq, Repr

/-- The error classes the pipeline can surface, following the spec's
taxonomy: `KeyError` (absent column), `ValueError` (invalid split
fraction), `ConfigurationError` (empty training set / bad grid key). -/
inductive PyError where
  | keyError : PyError
  | valueError : PyError
  | configurationError : PyError
deriving DecidableEq, Repr

instance {ε α : Type} [DecidableEq ε] [DecidableEq α] : DecidableEq (Except ε α) := fun a b =>
  match a, b with
  | .error e, .error f =>
    if h : e = f then .isTrue (by rw [h]) else .isFalse (fun hc => h (by injection hc))
  | .error _, .ok _ => .isFalse (fun hc => by injection hc)
  | .ok _, .error _ => .isFalse (fun hc => by injection hc)
  | .ok a, .ok b =>
    if h : a = b then .isTrue (by rw [h]) else .isFalse (fun hc => h (by injection hc))

/-- A pandas `DataFrame`: named columns and rows of cells.  A row is
well-formed when its length equals the number of columns. -/
structure DataFrame where
  columns : List String
  rows : List (List Cell)
deriving DecidableEq, Repr

/-- All rows have exactly one cell per column. -/
def DataFrame.WF (df : DataFrame) : Prop :=
  ∀ r ∈ df.rows, r.length = df.columns.length

instance (df : DataFrame) : Decidable df.WF := by
  unfold DataFrame.WF; infer_instance

/-- Python `str.strip()`: drop leading and trailing whitespace. -/
def pyStrip (s : String) : String :=
  ⟨((s.data.dropWhile Char.isWhitespace).reverse.dropWhile Char.isWhitespace).reverse⟩

/-- Python `str.replace(' ', '_')` for the single-character pattern:
replace every space character by an underscore. -/
def pyReplaceSpace (s : String) : String :=
  ⟨s.data.map (fun c => if c = ' ' then '_' else c)⟩

/-- Column-name normalisation of `load_data`:
`col.strip().replace(' ', '_')`. -/
def normalizeName (s : String) : String :=
  pyReplaceSpace (pyStrip s)

/-- The assignment `df.columns = [col.strip().replace(' ', '_') for col in df.columns]`. -/
def normalizeCols (df : DataFrame) : DataFrame :=
  { df with columns := df.columns.map normalizeName }

/-- The function `numpy.select condlist choicelist` with explicit default: the choice of
the first true condition, and the default value when no condition holds
(numpy's `default` argument, which is `0` at the call site in
`load_data`). -/
def np_select : List Bool → List Rat → Rat → Rat
  | true :: _, v :: _, _ => v
  | _ :: cs, _ :: vs, d => np_select cs vs d
  | _, _, d => d

/-- The pandas comparison `cell >= q` on a numeric-or-missing column:
`NaN` compares false. -/
def cellGe (c : Cell) (q : Rat) : Bool :=
  match c with
  | .num r => q ≤ r
  | _ => false

/-- The pandas comparison `cell <= q` on a numeric-or-missing column:
`NaN` compares false. -/
def cellLe (c : Cell) (q : Rat) : Bool :=
  match c with
  | .num r => r ≤ q
  | _ => false

/-- One entry of
`np.select([(df['Ratings'] >= 4), (df['Ratings'] <= 3)], [1, 0])`:
the derived binary label for one rating cell. -/
def labelCell (c : Cell) : Cell :=
  .num (np_select [cellGe c 4, cellLe c 3] [1, 0] 0)

/-- One cell of `df.replace('', np.nan)`: an empty-string cell becomes
missing, every other cell is unchanged. -/
def replaceEmpty (c : Cell) : Cell :=
  if c = .str "" then .na else c

/-- The `df.dropna()` row predicate: keep a row iff it has no missing cell. -/
def rowComplete (r : List Cell) : Bool :=
  !(r.any (fun c => c == .na))

/-- Index of a named column, as pandas column lookup does. -/
def colIdx (df : DataFrame) (name : String) : Option Nat :=
  df.columns.findIdx? (fun c => c == name)

/-- The task `load_data` (lines 42-55 of the source), applied to the already-parsed
table: normalise the column names, overwrite the `Ratings` column with the
`np.select`-derived binary label, replace empty strings by `NaN`, and drop
every row containing a missing value.  Accessing `df['Ratings']` on a table
without that column raises `KeyError`. -/
def load_data (df : DataFrame) : Except PyError DataFrame :=
  let df1 := normalizeCols df
  match colIdx df1 "Ratings" with
  | none => .error .keyError
  | some i =>
    let rows2 := df1.rows.map (fun r => r.set i (labelCell (r.getD i .na)))
    let rows3 := rows2.map (fun r => r.map replaceEmpty)
    let rows4 := rows3.filter rowComplete
    .ok { columns := df1.columns, rows := rows4 }

/-- Projection of a named column, preserving row order. -/
def getCol (df : DataFrame) (name : String) : Option (List Cell) :=
  (colIdx df name).map (fun i => df.rows.map (fun r => r.getD i .na))

/-- The task `input_output` (lines 58-65 of the source): project the input column as
`X` and the output column as `y`; pandas raises `KeyError` when a named
column is absent. -/
def input_output (data : DataFrame) (inp outp : String) :
    Except PyError (List Cell × List Cell) :=
  match getCol data inp, getCol data outp with
  | some X, some y => .ok (X, y)
  | _, _ => .error .keyError

/-- The rational 7/2, in kernel-reducible constructor form. -/
def sevenHalves : Rat := ⟨7, 2, by decide, by decide⟩

/-- The rational 1/4 (the default `test_size=0.25`), in kernel-reducible
constructor form. -/
def quarter : Rat := ⟨1, 4, by decide, by decide⟩

/-- Modelled from the spec: one step of the seeded pseudo-random number
generator driving `sklearn.model_selection.train_test_split` (the library
internals are not part of this repository; the spec only requires the
stream to be a deterministic function of the seed).  A standard linear
congruential step stands in for the library's generator. -/
def lcg (s : Nat) : Nat :=
  (1103515245 * s + 12345) % 2147483648

/-- Modelled from the spec: seeded Fisher-Yates shuffle with explicit fuel
(the fuel is the list length, making the recursion structural).  At each
step the generator picks one remaining element; the result is a
permutation of the input, deterministic in the seed. -/
def shuffleAux : Nat → Nat → List Nat → List Nat
  | 0, _, _ => []
  | _ + 1, _, [] => []
  | fuel + 1, seed, x :: xs =>
    let l := x :: xs
    let y := l.getD (seed % l.length) 0
    y :: shuffleAux fuel (lcg seed) (l.erase y)

/-- Modelled from the spec: the deterministic seeded permutation of a list
used to assign rows to the train/test partitions. -/
def shuffleList (seed : Nat) (l : List Nat) : List Nat :=
  shuffleAux l.length seed l

/-- The count `ceil (n * t)` for `0 < t`, computed on the reduced fraction
`t = t.num / t.den`: the held-out sample count `n_test` that the spec's
test fraction determines for `n` input rows. -/
def nTest (n : Nat) (t : Rat) : Nat :=
  (n * t.num.toNat + (t.den - 1)) / t.den

/-- Modelled from the spec: the deterministic partition of the row indices
`0, ..., n-1` into (train, test) membership - a seeded permutation whose
first `nTest` entries form the test partition and whose remainder forms
the train partition. -/
def splitIndices (n : Nat) (t : Rat) (seed : Nat) : List Nat × List Nat :=
  let perm := shuffleList seed (List.range n)
  (perm.drop (nTest n t), perm.take (nTest n t))

/-- The task `split_train_test` (lines 68-73 of the source), delegating to
`train_test_split(X, y, test_size, random_state)`.  Modelled from the
spec: the test fraction must lie strictly between 0 and 1, otherwise the
call fails with `ValueError`; a fraction inside the interval yields the
deterministic partition `(X_train, X_test, y_train, y_test)` given by
`splitIndices`. -/
def split_train_test (X y : List Cell) (test_size : Rat) (random_state : Nat) :
    Except PyError (List Cell × List Cell × List Cell × List Cell) :=
  if test_size ≤ 0 ∨ 1 ≤ test_size then .error .valueError
  else
    let p := splitIndices X.length test_size random_state
    .ok (p.1.map (fun i => X.getD i .na), p.2.map (fun i => X.getD i .na),
         p.1.map (fun i => y.getD i .na), p.2.map (fun i => y.getD i .na))

/-- The two stages of the pipeline built in `train_model` (lines 84-87 of
the source): `('vectorization', CountVectorizer())` and
`('classifier', MultinomialNB())`. -/
def pipelineStages : List String := ["vectorization", "classifier"]

/-- A hyperparameter name maps to a pipeline stage when it names a stage
outright (replacing the whole transformer, as `'vectorization'` does at
the call site) or is stage-qualified as `stage__param`. -/
def validKey (k : String) : Bool :=
  pipelineStages.any (fun s => k == s || List.isPrefixOf (s ++ "__").data k.data)

/-- Modelled from the spec: `sklearn.model_selection.ParameterGrid` - the
Cartesian product of the candidate values, one choice per grid entry. -/
def paramCombos {V : Type} : List (String × List V) → List (List (String × V))
  | [] => [[]]
  | (nm, vals) :: rest =>
    vals.flatMap (fun v => (paramCombos rest).map (fun combo => (nm, v) :: combo))

/-- An abstract estimator: something that can be fitted on parameters and
training data and then predict labels for inputs.  The concrete estimator
of `train_model` (`CountVectorizer` + `MultinomialNB`) lives inside
scikit-learn and is not code of this repository, so it stays abstract. -/
structure PipelineEstimator (V M : Type) where
  fit : List (String × V) → List Cell → List Cell → M
  predict : M → List Cell → List Cell

/-- The score `sklearn.metrics.f1_score` on binary labels with positive class
`.num 1`: harmonic mean of precision and recall,
`2*TP / (2*TP + FP + FN)`, and 0 when the denominator vanishes. -/
def f1_score (ytrue ypred : List Cell) : Rat :=
  let pairs := ytrue.zip ypred
  let tp := pairs.countP (fun pr => pr.1 == Cell.num 1 && pr.2 == Cell.num 1)
  let fp := pairs.countP (fun pr => !(pr.1 == Cell.num 1) && pr.2 == Cell.num 1)
  let fn := pairs.countP (fun pr => pr.1 == Cell.num 1 && !(pr.2 == Cell.num 1))
  if 2 * tp + fp + fn = 0 then 0 else (2 * tp : Rat) / ((2 * tp + fp + fn : Nat) : Rat)

/-- Modelled from the spec: start of the `i`-th of `k` contiguous
cross-validation folds over `n` samples (`sklearn.model_selection.KFold`
without shuffling). -/
def foldStart (n k i : Nat) : Nat :=
  i * (n / k) + min i (n % k)

/-- Modelled from the spec: size of the `i`-th of `k` contiguous
cross-validation folds over `n` samples; the first `n % k` folds get one
extra sample. -/
def foldSize (n k i : Nat) : Nat :=
  n / k + (if i < n % k then 1 else 0)

/-- Held-out indices of the `i`-th cross-validation fold. -/
def foldTestIdx (n k i : Nat) : List Nat :=
  (List.range (foldSize n k i)).map (fun j => foldStart n k i + j)

/-- Training indices of the `i`-th cross-validation fold: everything
outside the held-out block. -/
def foldTrainIdx (n k i : Nat) : List Nat :=
  (List.range n).filter
    (fun j => decide (j < foldStart n k i ∨ foldStart n k i + foldSize n k i ≤ j))

/-- Select the entries of a column at the given row indices. -/
def selectIdx (xs : List Cell) (idx : List Nat) : List Cell :=
  idx.map (fun i => xs.getD i .na)

/-- Modelled from the spec: the mean cross-validated score of one
parameter combination - fit on each fold's training part, score the
held-out part with the scorer, average over the `cv` folds. -/
def cvTestScore {V M : Type} (est : PipelineEstimator V M)
    (scorer : List Cell → List Cell → Rat) (cv : Nat)
    (p : List (String × V)) (X y : List Cell) : Rat :=
  let n := X.length
  (((List.range cv).map (fun i =>
    scorer (selectIdx y (foldTestIdx n cv i))
      (est.predict
        (est.fit p (selectIdx X (foldTrainIdx n cv i)) (selectIdx y (foldTrainIdx n cv i)))
        (selectIdx X (foldTestIdx n cv i))))).sum) / (cv : Rat)

/-- Modelled from the spec: the mean training score of one parameter
combination over the `cv` folds (recorded because the source passes
`return_train_score=True`). -/
def cvTrainScore {V M : Type} (est : PipelineEstimator V M)
    (scorer : List Cell → List Cell → Rat) (cv : Nat)
    (p : List (String × V)) (X y : List Cell) : Rat :=
  let n := X.length
  (((List.range cv).map (fun i =>
    scorer (selectIdx y (foldTrainIdx n cv i))
      (est.predict
        (est.fit p (selectIdx X (foldTrainIdx n cv i)) (selectIdx y (foldTrainIdx n cv i)))
        (selectIdx X (foldTrainIdx n cv i))))).sum) / (cv : Rat)

/-- First maximiser of `f` in a list (ties resolved towards the earlier
element, as `numpy.argmax` does). -/
def argmaxBy {α : Type} (f : α → Rat) : List α → Option α
  | [] => none
  | x :: xs =>
    match argmaxBy f xs with
    | none => some x
    | some y => if f x < f y then some y else some x

/-- The search trace and fitted result of a grid search: the configuration
used, the candidate combinations, their recorded mean test and train
scores, the selected combination and the refitted best estimator. -/
structure GSResult (V M : Type) where
  cv : Nat
  scoring : String
  return_train_score : Bool
  candidates : List (List (String × V))
  mean_test_scores : List Rat
  mean_train_scores : List Rat
  best_params : List (String × V)
  best_estimator : M

/-- Modelled from the spec: `GridSearchCV.fit` - enumerate the Cartesian
product of the grid, score every combination by `cv`-fold
cross-validation with the given scorer, record the train scores, select
the best-scoring combination, and refit it on the full training set.  An
empty candidate list fails with `ValueError` (the spec's taxonomy for an
empty hyperparameter grid). -/
def gridSearchFit {V M : Type} (est : PipelineEstimator V M) (scoringName : String)
    (scorer : List Cell → List Cell → Rat) (cv : Nat) (rts : Bool)
    (grid : List (String × List V)) (X y : List Cell) :
    Except PyError (GSResult V M) :=
  let candidates := paramCombos grid
  match argmaxBy (fun p => cvTestScore est scorer cv p X y) candidates with
  | none => .error .valueError
  | some best =>
    .ok { cv := cv
          scoring := scoringName
          return_train_score := rts
          candidates := candidates
          mean_test_scores := candidates.map (fun p => cvTestScore est scorer cv p X y)
          mean_train_scores := candidates.map (fun p => cvTrainScore est scorer cv p X y)
          best_params := best
          best_estimator := est.fit best X y }

/-- The task `train_model` (lines 76-98 of the source): grid search over the given
hyperparameters with `scoring='f1'`, `cv=4`, `return_train_score=True`.
Modelled from the spec for the failure cases of its taxonomy: a
hyperparameter name that maps to no pipeline stage, or an empty training
set, fails with `ConfigurationError`. -/
def train_model {V M : Type} (est : PipelineEstimator V M) (X_train y_train : List Cell)
    (hyperparameters : List (String × List V)) : Except PyError (GSResult V M) :=
  if hyperparameters.any (fun kv => !(validKey kv.1)) then .error .configurationError
  else if X_train.length = 0 then .error .configurationError
  else gridSearchFit est "f1" f1_score 4 true hyperparameters X_train y_train

/-- One retained row of `load_data`: overwrite the rating cell at index
`i` with its binary label, then apply the empty-string replacement to
every cell. -/
def transformRow (i : Nat) (r : List Cell) : List Cell :=
  (r.set i (labelCell (r.getD i .na))).map replaceEmpty

/-- The rating cell is numeric or missing (the only dtypes on which the
pandas comparisons of line 49 are defined). -/
def numOrNa (c : Cell) : Bool :=
  match c with
  | .str _ => false
  | _ => true

/-- Example input table: ratings 5,2,3,4 with review texts, plus one row
whose review text is empty; the second column name carries surrounding
and internal spaces. -/
def dfEx : DataFrame :=
  ⟨["Ratings", " Review text "],
   [[.num 5, .str "good"], [.num 2, .str "bad"], [.num 3, .str "meh"],
    [.num 4, .str "fine"], [.num 5, .str ""]]⟩

/-- The table `load_data` produces from `dfEx`. -/
def outEx : DataFrame :=
  ⟨["Ratings", "Review_text"],
   [[.num 1, .str "good"], [.num 0, .str "bad"], [.num 0, .str "meh"],
    [.num 1, .str "fine"]]⟩

/-- A one-row table whose rating 7/2 satisfies neither `>= 4` nor
`<= 3`. -/
def dfC2 : DataFrame :=
  ⟨["Ratings", "Review_text"], [[.num sevenHalves, .str "ok"]]⟩

/-- The feature/target extraction the `workflow` performs (lines 123-135
of the source): `load_data` followed by
`input_output(df, 'Review_text', 'Ratings')`. -/
def workflowXy (df : DataFrame) : Except PyError (List Cell × List Cell) :=
  (load_data df).bind (fun d => input_output d "Review_text" "Ratings")

/-- Example feature column for the splitter. -/
def xEx : List Cell := [.str "a", .str "b", .str "c", .str "d"]

/-- Example label column for the splitter. -/
def yEx : List Cell := [.num 1, .num 0, .num 1, .num 0]

/-- A concrete estimator instance used only to instantiate witnesses: it
ignores its parameters and always predicts the positive class. -/
def toyEstimator : PipelineEstimator Nat Unit :=
  { fit := fun _ _ _ => ()
    predict := fun _ xs => xs.map (fun _ => .num 1) }

/-- The hyperparameter grid shape of the `workflow` (lines 125-129 of the
source), with the estimator objects abstracted to numeric tags: one
candidate vectorizer, `max_features` 5000, `alpha` 1. -/
def gridEx : List (String × List Nat) :=
  [("vectorization", [0]), ("vectorization__max_features", [5000]),
   ("classifier__alpha", [1])]

/-- Sanity check, the spec's concrete loading scenario: ratings 5,2,3,4
survive with labels 1,0,0,1 in order, the empty-review row is removed,
and the column name "Review text" is normalised. -/
theorem load_data_concrete_scenario :
    load_data ⟨["Ratings", "Review text"],
      [[.num 5, .str "good"], [.num 2, .str "bad"], [.num 3, .str "meh"],
       [.num 4, .str "fine"], [.num 5, .str ""]]⟩ =
    .ok ⟨["Ratings", "Review_text"],
      [[.num 1, .str "good"], [.num 0, .str "bad"], [.num 0, .str "meh"],
       [.num 1, .str "fine"]]⟩ := by rfl

/-- Sanity check: a rating strictly between 3 and 4 is labelled 0 and
its row is retained. -/
theorem load_data_between_scenario :
    load_data ⟨["Ratings", "Review_text"], [[.num sevenHalves, .str "ok"]]⟩ =
    .ok ⟨["Ratings", "Review_text"], [[.num 0, .str "ok"]]⟩ := by decide

theorem shuffleAux_perm (fuel : Nat) :
    ∀ (seed : Nat) (l : List Nat), l.length ≤ fuel → (shuffleAux fuel seed l).Perm l := by
  induction fuel with
  | zero =>
    intro seed l hl
    have hnil : l = [] := List.eq_nil_of_length_eq_zero (Nat.le_zero.mp hl)
    subst hnil
    simp [shuffleAux]
  | succ fuel ih =>
    intro seed l hl
    match l with
    | [] => simp [shuffleAux]
    | x :: xs =>
      have hlt : seed % (x :: xs).length < (x :: xs).length :=
        Nat.mod_lt _ (by simp)
      have hmem : (x :: xs).getD (seed % (x :: xs).length) 0 ∈ x :: xs := by
        rw [List.getD_eq_getElem?_getD, List.getElem?_eq_getElem hlt]
        exact List.getElem_mem hlt
      have herase :
          ((x :: xs).erase ((x :: xs).getD (seed % (x :: xs).length) 0)).length ≤ fuel := by
        rw [List.length_erase_of_mem hmem]
        simpa using Nat.le_of_succ_le_succ hl
      simp only [shuffleAux]
      exact ((ih (lcg seed) _ herase).cons _).trans (List.perm_cons_erase hmem).symm

theorem shuffleList_perm (seed : Nat) (l : List Nat) : (shuffleList seed l).Perm l :=
  shuffleAux_perm l.length seed l (Nat.le_refl _)

theorem nodup_take_disjoint_drop {α : Type} {l : List α} (h : l.Nodup) (k : Nat) :
    (l.take k).Disjoint (l.drop k) := by
  rw [← List.take_append_drop k l] at h
  exact (List.nodup_append.mp h).2.2

theorem load_data_eq (df : DataFrame) (i : Nat)
    (hcol : colIdx (normalizeCols df) "Ratings" = some i) :
    load_data df =
      .ok { columns := (normalizeCols df).columns,
            rows := (df.rows.map (transformRow i)).filter rowComplete } := by
  unfold load_data
  simp only [hcol, List.map_map]
  rfl

theorem load_data_out (df out : DataFrame) (i : Nat)
    (hcol : colIdx (normalizeCols df) "Ratings" = some i)
    (hload : load_data df = .ok out) :
    out.columns = (normalizeCols df).columns ∧
    out.rows = (df.rows.map (transformRow i)).filter rowComplete := by
  rw [load_data_eq df i hcol] at hload
  have h := Except.ok.inj hload
  rw [← h]
  exact ⟨rfl, rfl⟩

theorem mem_load_data_rows (df out : DataFrame) (i : Nat) (row : List Cell)
    (hcol : colIdx (normalizeCols df) "Ratings" = some i)
    (hload : load_data df = .ok out)
    (hrow : row ∈ out.rows) :
    ∃ orig ∈ df.rows, row = transformRow i orig ∧ rowComplete row = true := by
  obtain ⟨-, hr⟩ := load_data_out df out i hcol hload
  rw [hr] at hrow
  obtain ⟨hmem, hcomp⟩ := List.mem_filter.mp hrow
  obtain ⟨orig, horig, heq⟩ := List.mem_map.mp hmem
  exact ⟨orig, horig, heq.symm, hcomp⟩

/-- The selection `np.select([(r >= 4), (r <= 3)], [1, 0])` collapses to "1 when the
rating is at least 4, else 0", because numpy's default fills the
not-covered cases with 0 as well. -/
theorem labelCell_eq (c : Cell) :
    labelCell c = .num (if cellGe c 4 then 1 else 0) := by
  cases hg : cellGe c 4 <;> cases hl : cellLe c 3 <;>
    simp [labelCell, np_select, hg, hl]

theorem getD_map_of_lt {α β : Type} (f : α → β) (l : List α) (i : Nat) (d : β) (d' : α)
    (h : i < l.length) : (l.map f).getD i d = f (l.getD i d') := by
  rw [List.getD_eq_getElem?_getD, List.getD_eq_getElem?_getD,
      List.getElem?_eq_getElem (by simpa using h), List.getElem?_eq_getElem h]
  simp

theorem getD_set_self_of_lt {α : Type} (l : List α) (i : Nat) (v d : α)
    (h : i < l.length) : (l.set i v).getD i d = v := by
  rw [List.getD_eq_getElem?_getD, List.getElem?_set_self (by simpa using h)]
  rfl

/-- The label cell a retained row carries at the rating index. -/
theorem transformRow_getD (i : Nat) (r : List Cell) (h : i < r.length) :
    (transformRow i r).getD i .na = labelCell (r.getD i .na) := by
  unfold transformRow
  rw [getD_map_of_lt replaceEmpty _ i .na .na (by simpa using h),
      getD_set_self_of_lt _ _ _ _ h]
  simp [replaceEmpty, labelCell]

theorem head?_dropWhile_false {α : Type} (p : α → Bool) :
    ∀ (l : List α) (x : α), (l.dropWhile p).head? = some x → p x = false := by
  intro l
  induction l with
  | nil => intro x h; simp [List.dropWhile] at h
  | cons a l ih =>
    intro x h
    rw [List.dropWhile_cons] at h
    by_cases hp : p a
    · rw [if_pos hp] at h
      exact ih x h
    · rw [if_neg hp] at h
      have hx : a = x := by simpa using h
      rw [← hx]
      simpa using hp

theorem getLast?_dropWhile_of_ne_nil {α : Type} (p : α → Bool) (l : List α)
    (h : l.dropWhile p ≠ []) : (l.dropWhile p).getLast? = l.getLast? := by
  obtain ⟨t, ht⟩ := List.dropWhile_suffix (l := l) p
  cases hd : (l.dropWhile p).getLast? with
  | none =>
    exact absurd (List.getLast?_eq_none_iff.mp hd) h
  | some v =>
    conv_rhs => rw [← ht]
    rw [List.getLast?_append, hd]
    rfl

theorem pyStrip_head (s : String) (ch : Char)
    (h : (pyStrip s).data.head? = some ch) : ch.isWhitespace = false := by
  unfold pyStrip at h
  rw [show (⟨((s.data.dropWhile Char.isWhitespace).reverse.dropWhile
        Char.isWhitespace).reverse⟩ : String).data =
      ((s.data.dropWhile Char.isWhitespace).reverse.dropWhile
        Char.isWhitespace).reverse from rfl,
    List.head?_reverse] at h
  have hne : (s.data.dropWhile Char.isWhitespace).reverse.dropWhile Char.isWhitespace ≠ [] := by
    intro hnil
    rw [hnil] at h
    simp at h
  rw [getLast?_dropWhile_of_ne_nil _ _ hne, List.getLast?_reverse] at h
  exact head?_dropWhile_false _ _ _ h

theorem pyStrip_getLast (s : String) (ch : Char)
    (h : (pyStrip s).data.getLast? = some ch) : ch.isWhitespace = false := by
  unfold pyStrip at h
  rw [show (⟨((s.data.dropWhile Char.isWhitespace).reverse.dropWhile
        Char.isWhitespace).reverse⟩ : String).data =
      ((s.data.dropWhile Char.isWhitespace).reverse.dropWhile
        Char.isWhitespace).reverse from rfl,
    List.getLast?_reverse] at h
  exact head?_dropWhile_false _ _ _ h

theorem normalizeName_no_space (s : String) :
    ∀ ch ∈ (normalizeName s).data, ch ≠ ' ' := by
  intro ch hch
  rcases List.mem_map.mp hch with ⟨c, -, hc⟩
  by_cases h : c = ' '
  · rw [if_pos h] at hc
    rw [← hc]
    decide
  · rw [if_neg h] at hc
    rw [← hc]
    exact h

theorem normalizeName_head (s : String) (ch : Char)
    (h : (normalizeName s).data.head? = some ch) : ch.isWhitespace = false := by
  unfold normalizeName pyReplaceSpace at h
  rw [show (⟨(pyStrip s).data.map (fun c => if c = ' ' then '_' else c)⟩ : String).data =
      (pyStrip s).data.map (fun c => if c = ' ' then '_' else c) from rfl,
    List.head?_map] at h
  cases hh : (pyStrip s).data.head? with
  | none => rw [hh] at h; simp at h
  | some c =>
    rw [hh] at h
    have hw : c.isWhitespace = false := pyStrip_head s c hh
    have hcs : c ≠ ' ' := by
      intro hsp
      rw [hsp] at hw
      simp at hw
    have h2 := Option.some.inj h
    simp only [if_neg hcs] at h2
    rw [← h2]
    exact hw

theorem normalizeName_getLast (s : String) (ch : Char)
    (h : (normalizeName s).data.getLast? = some ch) : ch.isWhitespace = false := by
  unfold normalizeName pyReplaceSpace at h
  rw [show (⟨(pyStrip s).data.map (fun c => if c = ' ' then '_' else c)⟩ : String).data =
      (pyStrip s).data.map (fun c => if c = ' ' then '_' else c) from rfl,
    List.getLast?_map] at h
  cases hh : (pyStrip s).data.getLast? with
  | none => rw [hh] at h; simp at h
  | some c =>
    rw [hh] at h
    have hw : c.isWhitespace = false := pyStrip_getLast s c hh
    have hcs : c ≠ ' ' := by
      intro hsp
      rw [hsp] at hw
      simp at hw
    have h2 := Option.some.inj h
    simp only [if_neg hcs] at h2
    rw [← h2]
    exact hw

theorem argmaxBy_eq_none {α : Type} (f : α → Rat) (l : List α) :
    argmaxBy f l = none ↔ l = [] := by
  cases l with
  | nil => simp [argmaxBy]
  | cons x xs =>
    simp only [argmaxBy]
    cases argmaxBy f xs with
    | none => simp
    | some y =>
      by_cases hlt : f x < f y <;> simp [hlt]

theorem argmaxBy_mem {α : Type} (f : α → Rat) (l : List α) (a : α)
    (h : argmaxBy f l = some a) : a ∈ l := by
  induction l generalizing a with
  | nil => simp [argmaxBy] at h
  | cons x xs ih =>
    rw [argmaxBy] at h
    cases hm : argmaxBy f xs with
    | none =>
      rw [hm] at h
      have : x = a := Option.some.inj h
      rw [← this]
      exact List.mem_cons_self x xs
    | some y =>
      rw [hm] at h
      replace h : (if f x < f y then some y else some x) = some a := h
      by_cases hlt : f x < f y
      · rw [if_pos hlt] at h
        have : y = a := Option.some.inj h
        exact List.mem_cons_of_mem x (ih a (hm.trans (by rw [this])))
      · rw [if_neg hlt] at h
        have : x = a := Option.some.inj h
        rw [← this]
        exact List.mem_cons_self x xs

theorem argmaxBy_le {α : Type} (f : α → Rat) (l : List α) (a : α)
    (h : argmaxBy f l = some a) : ∀ b ∈ l, f b ≤ f a := by
  induction l generalizing a with
  | nil => simp [argmaxBy] at h
  | cons x xs ih =>
    rw [argmaxBy] at h
    cases hm : argmaxBy f xs with
    | none =>
      rw [hm] at h
      have hx : x = a := Option.some.inj h
      have hnil : xs = [] := (argmaxBy_eq_none f xs).mp hm
      intro b hb
      rw [hnil] at hb
      have : b = x := by simpa using hb
      rw [this, hx]
    | some y =>
      rw [hm] at h
      replace h : (if f x < f y then some y else some x) = some a := h
      by_cases hlt : f x < f y
      · rw [if_pos hlt] at h
        have hy : y = a := Option.some.inj h
        intro b hb
        rcases List.mem_cons.mp hb with hbx | hbxs
        · rw [hbx, ← hy]
          exact le_of_lt hlt
        · rw [← hy]
          exact ih y hm b hbxs
      · rw [if_neg hlt] at h
        have hx : x = a := Option.some.inj h
        intro b hb
        rcases List.mem_cons.mp hb with hbx | hbxs
        · rw [hbx, hx]
        · calc f b ≤ f y := ih y hm b hbxs
            _ ≤ f x := not_lt.mp hlt
            _ = f a := by rw [hx]

theorem mem_paramCombos {V : Type} (g : List (String × List V)) (c : List (String × V)) :
    c ∈ paramCombos g ↔
      List.Forall₂ (fun e ch => ch.1 = e.1 ∧ ch.2 ∈ e.2) g c := by
  induction g generalizing c with
  | nil =>
    simp [paramCombos, List.forall₂_nil_left_iff]
  | cons e g ih =>
    obtain ⟨nm, vals⟩ := e
    constructor
    · intro hc
      simp only [paramCombos, List.mem_flatMap, List.mem_map] at hc
      obtain ⟨v, hv, c', hc', rfl⟩ := hc
      exact List.Forall₂.cons ⟨rfl, hv⟩ ((ih c').mp hc')
    · intro hfa
      cases hfa with
      | cons hrel hrest =>
        rename_i ch c'
        obtain ⟨h1, h2⟩ := hrel
        simp only [paramCombos, List.mem_flatMap, List.mem_map]
        refine ⟨ch.2, h2, c', (ih c').mpr hrest, ?_⟩
        rw [show ((nm, ch.2) : String × V) = ch from ?_]
        · cases ch
          simp at h1
          rw [h1]

theorem input_output_ok (data : DataFrame) (inp outp : String) (i j : Nat)
    (hi : colIdx data inp = some i) (hj : colIdx data outp = some j) :
    input_output data inp outp =
      .ok (data.rows.map (fun r => r.getD i .na), data.rows.map (fun r => r.getD j .na)) := by
  unfold input_output getCol
  rw [hi, hj]
  rfl

theorem input_output_keyError (data : DataFrame) (inp outp : String)
    (h : colIdx data inp = none ∨ colIdx data outp = none) :
    input_output data inp outp = .error .keyError := by
  unfold input_output getCol
  rcases h with h | h
  · rw [h]
    rfl
  · rw [h]
    cases colIdx data inp <;> rfl

/-- Sanity check: `outEx` really is what `load_data` returns on `dfEx`. -/
theorem load_data_dfEx : load_data dfEx = .ok outEx := by decide

/-- C1: every row retained by `load_data` carries, in the label (Ratings)
column, the value 1 when the row's original rating is at least 4 and the
value 0 otherwise. -/
theorem c1_label_of_retained_row (df out : DataFrame) (i : Nat) (row : List Cell)
    (hcol : colIdx (normalizeCols df) "Ratings" = some i)
    (hload : load_data df = .ok out)
    (hwf : ∀ r ∈ df.rows, i < r.length)
    (_hnum : ∀ r ∈ df.rows, numOrNa (r.getD i .na) = true)
    (hrow : row ∈ out.rows) :
    ∃ orig ∈ df.rows,
      row = transformRow i orig ∧
      row.getD i .na = .num (if cellGe (orig.getD i .na) 4 then 1 else 0) := by
  obtain ⟨orig, horig, heq, -⟩ := mem_load_data_rows df out i row hcol hload hrow
  refine ⟨orig, horig, heq, ?_⟩
  rw [heq, transformRow_getD i orig (hwf orig horig), labelCell_eq]

/-- Witness for C1: in the concrete table `dfEx`, the first retained row
`[1, "good"]` originates from an input row whose rating (5) is at least
4, so its label is 1. -/
theorem c1_label_of_retained_row_witness :
    ∃ orig ∈ dfEx.rows,
      [Cell.num 1, Cell.str "good"] = transformRow 0 orig ∧
      ([Cell.num 1, Cell.str "good"] : List Cell).getD 0 .na =
        .num (if cellGe (orig.getD 0 .na) 4 then 1 else 0) :=
  c1_label_of_retained_row dfEx outEx 0 [Cell.num 1, Cell.str "good"]
    (by decide) (by decide) (by decide) (by decide) (by decide)

/-- C2 counterexample: the rating 7/2 satisfies neither `>= 4` nor
`<= 3`, yet `load_data` does NOT leave its label undefined and does NOT
drop the row - `np.select`'s default fills in the label 0 and the row is
retained. -/
theorem c2_between_rating_counterexample :
    cellGe (.num sevenHalves) 4 = false ∧
    cellLe (.num sevenHalves) 3 = false ∧
    load_data dfC2 = .ok ⟨["Ratings", "Review_text"], [[.num 0, .str "ok"]]⟩ := by
  decide

/-- C2 (amended): a rating satisfying neither `value >= 4` nor
`value <= 3` receives `np.select`'s default label 0 - a defined value,
not a missing one - and the row is retained by the missing-value removal
step whenever none of its other cells is missing. -/
theorem c2_between_rating_default_zero (df out : DataFrame) (i : Nat) (orig : List Cell)
    (hcol : colIdx (normalizeCols df) "Ratings" = some i)
    (hload : load_data df = .ok out)
    (horig : orig ∈ df.rows)
    (hi : i < orig.length)
    (hge : cellGe (orig.getD i .na) 4 = false)
    (_hle : cellLe (orig.getD i .na) 3 = false)
    (hcomplete : rowComplete (transformRow i orig) = true) :
    transformRow i orig ∈ out.rows ∧
    (transformRow i orig).getD i .na = .num 0 := by
  obtain ⟨-, hrows⟩ := load_data_out df out i hcol hload
  constructor
  · rw [hrows]
    exact List.mem_filter.mpr ⟨List.mem_map.mpr ⟨orig, horig, rfl⟩, hcomplete⟩
  · rw [transformRow_getD i orig hi, labelCell_eq, hge]
    simp

/-- Witness for the amended C2: in `dfC2` the rating 7/2 leads to the
retained row `[0, "ok"]` with the defined label 0. -/
theorem c2_between_rating_default_zero_witness :
    transformRow 0 [Cell.num sevenHalves, Cell.str "ok"] ∈
      (⟨["Ratings", "Review_text"], [[Cell.num 0, Cell.str "ok"]]⟩ : DataFrame).rows ∧
    (transformRow 0 [Cell.num sevenHalves, Cell.str "ok"]).getD 0 .na = .num 0 :=
  c2_between_rating_default_zero dfC2
    ⟨["Ratings", "Review_text"], [[Cell.num 0, Cell.str "ok"]]⟩ 0
    [Cell.num sevenHalves, Cell.str "ok"]
    (by decide) (by decide) (by decide) (by decide) (by decide) (by decide) (by decide)

/-- C3: after `load_data`, every column name is free of surrounding
whitespace and of internal spaces, and no retained row contains a missing
value, where empty-string cells count as missing. -/
theorem c3_clean_columns_no_missing (df out : DataFrame)
    (hload : load_data df = .ok out) :
    (∀ c ∈ out.columns,
       (∀ ch ∈ c.data, ch ≠ ' ') ∧
       (∀ ch, c.data.head? = some ch → ch.isWhitespace = false) ∧
       (∀ ch, c.data.getLast? = some ch → ch.isWhitespace = false)) ∧
    (∀ row ∈ out.rows, ∀ c ∈ row, c ≠ .na ∧ c ≠ .str "") := by
  cases hcol : colIdx (normalizeCols df) "Ratings" with
  | none =>
    unfold load_data at hload
    simp only [hcol] at hload
    exact absurd hload (by simp)
  | some i =>
    obtain ⟨hcols, hrows⟩ := load_data_out df out i hcol hload
    constructor
    · intro c hc
      rw [hcols] at hc
      obtain ⟨c0, -, rfl⟩ := List.mem_map.mp hc
      exact ⟨normalizeName_no_space c0,
             fun ch h => normalizeName_head c0 ch h,
             fun ch h => normalizeName_getLast c0 ch h⟩
    · intro row hrow c hc
      rw [hrows] at hrow
      obtain ⟨hmem, hcomp⟩ := List.mem_filter.mp hrow
      have hany : row.any (fun c => c == Cell.na) = false := by
        revert hcomp
        unfold rowComplete
        cases row.any (fun c => c == Cell.na) <;> simp
      have hna : c ≠ Cell.na := by
        intro heq
        have := (List.any_eq_false.mp hany) c hc
        rw [heq] at this
        simp at this
      refine ⟨hna, ?_⟩
      obtain ⟨orig, -, rfl⟩ := List.mem_map.mp hmem
      unfold transformRow at hc
      obtain ⟨c0, -, rfl⟩ := List.mem_map.mp hc
      unfold replaceEmpty
      by_cases h0 : c0 = .str ""
      · rw [if_pos h0]
        simp
      · rw [if_neg h0]
        exact h0

/-- Witness for C3: the output of `load_data` on `dfEx` has clean column
names and no missing cells. -/
theorem c3_clean_columns_no_missing_witness :
    (∀ c ∈ outEx.columns,
       (∀ ch ∈ c.data, ch ≠ ' ') ∧
       (∀ ch, c.data.head? = some ch → ch.isWhitespace = false) ∧
       (∀ ch, c.data.getLast? = some ch → ch.isWhitespace = false)) ∧
    (∀ row ∈ outEx.rows, ∀ c ∈ row, c ≠ .na ∧ c ≠ .str "") :=
  c3_clean_columns_no_missing dfEx outEx (by decide)

/-- C4: `input_output` returns exactly the projections of the named input
and output columns, in row order, and fails with the `KeyError` class
when either named column is absent. -/
theorem c4_input_output_projection (data : DataFrame) (inp outp : String) :
    (∀ i j, colIdx data inp = some i → colIdx data outp = some j →
        input_output data inp outp =
          .ok (data.rows.map (fun r => r.getD i .na),
               data.rows.map (fun r => r.getD j .na))) ∧
    ((colIdx data inp = none ∨ colIdx data outp = none) →
        input_output data inp outp = .error .keyError) :=
  ⟨fun i j hi hj => input_output_ok data inp outp i j hi hj,
   fun h => input_output_keyError data inp outp h⟩

/-- Witness for C4: on the concrete table `outEx`, projecting the present
columns succeeds with the two column projections, and asking for an
absent column fails with `KeyError`. -/
theorem c4_input_output_projection_witness :
    input_output outEx "Review_text" "Ratings" =
      .ok (outEx.rows.map (fun r => r.getD 1 .na),
           outEx.rows.map (fun r => r.getD 0 .na)) ∧
    input_output outEx "Nope" "Ratings" = .error .keyError :=
  ⟨(c4_input_output_projection outEx "Review_text" "Ratings").1 1 0 (by decide) (by decide),
   (c4_input_output_projection outEx "Nope" "Ratings").2 (Or.inl (by decide))⟩

/-- C10: `load_data` overwrites the `Ratings` column in place - the
returned table has exactly the normalised input columns (no extra label
column), every value left in the `Ratings` column is the binary label 0
or 1 (the original numeric ratings are gone), and the target `y` the
workflow extracts from `Ratings` is that binary label sequence. -/
theorem c10_ratings_overwritten_in_place (df out : DataFrame) (i j : Nat)
    (hcol : colIdx (normalizeCols df) "Ratings" = some i)
    (hrev : colIdx (normalizeCols df) "Review_text" = some j)
    (hload : load_data df = .ok out)
    (hwf : ∀ r ∈ df.rows, i < r.length) :
    out.columns = (normalizeCols df).columns ∧
    (∀ row ∈ out.rows, row.getD i .na = .num 0 ∨ row.getD i .na = .num 1) ∧
    workflowXy df =
      .ok (out.rows.map (fun r => r.getD j .na),
           out.rows.map (fun r => r.getD i .na)) ∧
    (∀ c ∈ out.rows.map (fun r => r.getD i .na), c = .num 0 ∨ c = .num 1) := by
  obtain ⟨hcols, -⟩ := load_data_out df out i hcol hload
  have hco : colIdx out "Ratings" = some i := by
    unfold colIdx
    rw [hcols]
    exact hcol
  have hcr : colIdx out "Review_text" = some j := by
    unfold colIdx
    rw [hcols]
    exact hrev
  have hlab : ∀ row ∈ out.rows, row.getD i .na = .num 0 ∨ row.getD i .na = .num 1 := by
    intro row hrow
    obtain ⟨orig, horig, heq, -⟩ := mem_load_data_rows df out i row hcol hload hrow
    rw [heq, transformRow_getD i orig (hwf orig horig), labelCell_eq]
    by_cases hge : cellGe (orig.getD i .na) 4
    · right
      rw [if_pos hge]
    · left
      rw [if_neg hge]
  refine ⟨hcols, hlab, ?_, ?_⟩
  · unfold workflowXy
    rw [hload]
    exact input_output_ok out "Review_text" "Ratings" j i hcr hco
  · intro c hc
    obtain ⟨row, hrow, rfl⟩ := List.mem_map.mp hc
    exact hlab row hrow

/-- Witness for C10: on `dfEx` the workflow's target `y` is the binary
label sequence `[1, 0, 0, 1]` taken from the overwritten `Ratings`
column. -/
theorem c10_ratings_overwritten_in_place_witness :
    outEx.columns = (normalizeCols dfEx).columns ∧
    (∀ row ∈ outEx.rows, row.getD 0 .na = .num 0 ∨ row.getD 0 .na = .num 1) ∧
    workflowXy dfEx =
      .ok (outEx.rows.map (fun r => r.getD 1 .na),
           outEx.rows.map (fun r => r.getD 0 .na)) ∧
    (∀ c ∈ outEx.rows.map (fun r => r.getD 0 .na), c = .num 0 ∨ c = .num 1) :=
  c10_ratings_overwritten_in_place dfEx outEx 0 1
    (by decide) (by decide) (by decide) (by decide)

/-- C5: two calls of `split_train_test` with the same features, labels,
test fraction and random seed produce identical train/test partitions. -/
theorem c5_split_deterministic (X y X2 y2 : List Cell) (t t2 : Rat) (s s2 : Nat)
    (hX : X = X2) (hy : y = y2) (ht : t = t2) (hs : s = s2) :
    split_train_test X y t s = split_train_test X2 y2 t2 s2 := by
  rw [hX, hy, ht, hs]

/-- Witness for C5: two runs on the concrete four-row input with
`test_size = 1/4` and seed 42 agree. -/
theorem c5_split_deterministic_witness :
    split_train_test xEx yEx quarter 42 = split_train_test xEx yEx quarter 42 :=
  c5_split_deterministic xEx yEx xEx yEx quarter quarter 42 42 rfl rfl rfl rfl

/-- C6: for a test fraction strictly between 0 and 1, the train and test
index partitions of `split_train_test` have lengths summing to the input
size, are disjoint, and together are a permutation of all row indices;
the returned quadruple maps the input columns over exactly these
partitions. -/
theorem c6_split_partition (X y : List Cell) (t : Rat) (s : Nat)
    (h0 : 0 < t) (h1 : t < 1) :
    ∃ tr te, splitIndices X.length t s = (tr, te) ∧
      tr.length + te.length = X.length ∧
      tr.Disjoint te ∧
      (te ++ tr).Perm (List.range X.length) ∧
      split_train_test X y t s =
        .ok (tr.map (fun i => X.getD i .na), te.map (fun i => X.getD i .na),
             tr.map (fun i => y.getD i .na), te.map (fun i => y.getD i .na)) := by
  have hp : (shuffleList s (List.range X.length)).Perm (List.range X.length) :=
    shuffleList_perm s (List.range X.length)
  have hlen : (shuffleList s (List.range X.length)).length = X.length := by
    rw [hp.length_eq, List.length_range]
  have hnd : (shuffleList s (List.range X.length)).Nodup :=
    (hp.nodup_iff).mpr (List.nodup_range _)
  refine ⟨_, _, rfl, ?_, ?_, ?_, ?_⟩
  · rw [List.length_drop, List.length_take, hlen]
    omega
  · exact (nodup_take_disjoint_drop hnd (nTest X.length t)).symm
  · rw [List.take_append_drop]
    exact hp
  · have hcond : ¬(t ≤ 0 ∨ 1 ≤ t) := by
      push_neg
      exact ⟨h0, h1⟩
    unfold split_train_test
    rw [if_neg hcond]
    rfl

/-- Witness for C6: the concrete four-row split with `test_size = 1/4`
and seed 42. -/
theorem c6_split_partition_witness :
    ∃ tr te, splitIndices xEx.length quarter 42 = (tr, te) ∧
      tr.length + te.length = xEx.length ∧
      tr.Disjoint te ∧
      (te ++ tr).Perm (List.range xEx.length) ∧
      split_train_test xEx yEx quarter 42 =
        .ok (tr.map (fun i => xEx.getD i .na), te.map (fun i => xEx.getD i .na),
             tr.map (fun i => yEx.getD i .na), te.map (fun i => yEx.getD i .na)) :=
  c6_split_partition xEx yEx quarter 42 (by decide) (by decide)

/-- C7: `split_train_test` fails with `ValueError` exactly when the test
fraction lies outside the open interval (0, 1); inside the interval it
returns a result. -/
theorem c7_test_fraction_validation (X y : List Cell) (t : Rat) (s : Nat) :
    (¬(0 < t ∧ t < 1) → split_train_test X y t s = .error .valueError) ∧
    ((0 < t ∧ t < 1) → ∃ r, split_train_test X y t s = .ok r) := by
  constructor
  · intro h
    have hcond : t ≤ 0 ∨ 1 ≤ t := by
      rcases not_and_or.mp h with h2 | h2
      · exact Or.inl (not_lt.mp h2)
      · exact Or.inr (not_lt.mp h2)
    unfold split_train_test
    rw [if_pos hcond]
  · rintro ⟨h0, h1⟩
    have hcond : ¬(t ≤ 0 ∨ 1 ≤ t) := by
      push_neg
      exact ⟨h0, h1⟩
    unfold split_train_test
    rw [if_neg hcond]
    exact ⟨_, rfl⟩

/-- Witness for C7: the fraction 2 is rejected with `ValueError`; the
fraction 1/4 is accepted. -/
theorem c7_test_fraction_validation_witness :
    split_train_test xEx yEx 2 42 = .error .valueError ∧
    (∃ r, split_train_test xEx yEx quarter 42 = .ok r) :=
  ⟨(c7_test_fraction_validation xEx yEx 2 42).1 (by decide),
   (c7_test_fraction_validation xEx yEx quarter 42).2 ⟨by decide, by decide⟩⟩

/-- C8: calling `train_model` with an empty training set fails with
`ConfigurationError` instead of returning a fitted model. -/
theorem c8_empty_training_set_error {V M : Type} (est : PipelineEstimator V M)
    (y : List Cell) (grid : List (String × List V)) :
    train_model est ([] : List Cell) y grid = .error .configurationError := by
  unfold train_model
  by_cases h : grid.any (fun kv => !(validKey kv.1)) = true
  · rw [if_pos h]
  · rw [if_neg h]
    rfl

/-- C9: on a nonempty training set with a well-formed nonempty grid,
`train_model` succeeds and its result performs an exhaustive search over
exactly the Cartesian product of the candidate values, configured with
4-fold cross-validation and F1 scoring, records the per-candidate mean
training scores, selects a candidate no other candidate beats, and refits
the selected candidate on the full training set. -/
theorem c9_grid_search_structure {V M : Type} (est : PipelineEstimator V M)
    (X y : List Cell) (grid : List (String × List V))
    (hvalid : grid.any (fun kv => !(validKey kv.1)) = false)
    (hX : ¬X.length = 0)
    (hne : paramCombos grid ≠ []) :
    ∃ r, train_model est X y grid = .ok r ∧
      r.cv = 4 ∧
      r.scoring = "f1" ∧
      r.return_train_score = true ∧
      (∀ c, c ∈ r.candidates ↔
        List.Forall₂ (fun e ch => ch.1 = e.1 ∧ ch.2 ∈ e.2) grid c) ∧
      r.best_params ∈ r.candidates ∧
      (∀ p ∈ r.candidates,
        cvTestScore est f1_score 4 p X y ≤ cvTestScore est f1_score 4 r.best_params X y) ∧
      r.mean_train_scores = r.candidates.map (fun p => cvTrainScore est f1_score 4 p X y) ∧
      r.best_estimator = est.fit r.best_params X y := by
  unfold train_model
  rw [if_neg (by rw [hvalid]; exact Bool.false_ne_true), if_neg hX]
  unfold gridSearchFit
  cases hm : argmaxBy (fun p => cvTestScore est f1_score 4 p X y) (paramCombos grid) with
  | none => exact absurd ((argmaxBy_eq_none _ _).mp hm) hne
  | some best =>
    have hg : gridSearchFit est "f1" f1_score 4 true grid X y =
        .ok { cv := 4
              scoring := "f1"
              return_train_score := true
              candidates := paramCombos grid
              mean_test_scores :=
                (paramCombos grid).map (fun p => cvTestScore est f1_score 4 p X y)
              mean_train_scores :=
                (paramCombos grid).map (fun p => cvTrainScore est f1_score 4 p X y)
              best_params := best
              best_estimator := est.fit best X y } := by
      unfold gridSearchFit
      simp only [hm]
    exact ⟨_, hg, rfl, rfl, rfl, fun c => mem_paramCombos grid c,
           argmaxBy_mem _ _ _ hm, fun p hp => argmaxBy_le _ _ _ hm p hp, rfl, rfl⟩

/-- Witness for C9: the toy estimator on the concrete four-row training
set with the workflow's single-candidate grid. -/
theorem c9_grid_search_structure_witness :
    ∃ r, train_model toyEstimator xEx yEx gridEx = .ok r ∧
      r.cv = 4 ∧
      r.scoring = "f1" ∧
      r.return_train_score = true ∧
      (∀ c, c ∈ r.candidates ↔
        List.Forall₂ (fun e ch => ch.1 = e.1 ∧ ch.2 ∈ e.2) gridEx c) ∧
      r.best_params ∈ r.candidates ∧
      (∀ p ∈ r.candidates,
        cvTestScore toyEstimator f1_score 4 p xEx yEx ≤
          cvTestScore toyEstimator f1_score 4 r.best_params xEx yEx) ∧
      r.mean_train_scores =
        r.candidates.map (fun p => cvTrainScore toyEstimator f1_score 4 p xEx yEx) ∧
      r.best_estimator = toyEstimator.fit r.best_params xEx yEx :=
  c9_grid_search_structure toyEstimator xEx yEx gridEx
    (by decide) (by decide) (by decide)
